import Mathlib

/-!
Verification of the chime-app channel fan-out and message-ordering subsystem.

Shallow embedding of:
- `ChannelManager` (channel membership map, src/unnamed/part_005)
- `UserConnectionManager` (connection registry, src/chat-server/src/util/UserConnectionManager.ts)
- `MessageSubscriberService` (fanout engine, src/unnamed/part_004)
- `MessageIDService.getNextMessageId` (sequence allocation, src/unnamed/part_003)
- `MessageService.saveMessage` (write path, src/chat-server/src/services/messageService.ts)

JavaScript `Map` objects are modelled as insertion-ordered association lists,
JavaScript `Set` objects as insertion-ordered duplicate-free lists.  External
collaborators (Redis counter, Cassandra store, WebSocket handles) are modelled
by explicit state threading; failures of external calls are modelled by
explicit error parameters, and thrown JS exceptions by `Except`.
-/

/-! ### Association-list model of JavaScript `Map` (string keys) -/

/-- `Map.get`: value of the first (in a real `Map`, only) entry with key `k`. -/
def assocGet {α : Type} : List (String × α) → String → Option α
  | [], _ => none
  | (k', v) :: rest, k => if k' = k then some v else assocGet rest k

/-- `Map.set`: replace the entry for `k` in place, or append a new entry. -/
def assocSet {α : Type} : List (String × α) → String → α → List (String × α)
  | [], k, v => [(k, v)]
  | (k', v') :: rest, k, v =>
    if k' = k then (k, v) :: rest else (k', v') :: assocSet rest k v

/-- `Map.delete`: remove the entry for `k`. -/
def assocDel {α : Type} : List (String × α) → String → List (String × α)
  | [], _ => []
  | (k', v') :: rest, k => if k' = k then rest else (k', v') :: assocDel rest k

/-! ### JSON values (results of `JSON.parse`) and JS property access -/

/-- A JavaScript value produced by `JSON.parse`. -/
inductive JsonValue : Type where
  | null : JsonValue
  | bool (b : Bool) : JsonValue
  | num (n : Int) : JsonValue
  | str (s : String) : JsonValue
  | arr (elems : List JsonValue) : JsonValue
  | obj (fields : List (String × JsonValue)) : JsonValue

/-- JS property access `v.k`: `undefined` (`none`) on a missing property or a
primitive receiver, a thrown `TypeError` (`Except.error`) on `null`. -/
def jsGetProp : JsonValue → String → Except Unit (Option JsonValue)
  | .null, _ => .error ()
  | .obj fields, k => .ok (assocGet fields k)
  | _, _ => .ok none

/-! ### The `ChimeMessage` record (src/chat-server `types/message.ts`) -/

structure ChimeMessage : Type where
  channelId : String
  messageId : String
  userId : String
  content : String
  createdAt : String
  editedAt : Option String
  metadata : List (String × String)
deriving DecidableEq

/-- The JSON object a well-formed `ChimeMessage` deserializes to. -/
def ChimeMessage.toJson (m : ChimeMessage) : JsonValue :=
  .obj [("channelId", .str m.channelId), ("messageId", .str m.messageId),
        ("userId", .str m.userId), ("content", .str m.content),
        ("createdAt", .str m.createdAt),
        ("editedAt", match m.editedAt with | none => .null | some s => .str s),
        ("metadata", .obj (m.metadata.map (fun p => (p.1, .str p.2))))]

/-- Modelled from the spec: the Message schema of section 3 (the code itself
performs no schema validation after `JSON.parse`; this predicate renders the
spec's notion of a schema-valid bus payload for comparison). -/
def isValidChimeMessageJson (v : JsonValue) : Bool :=
  match v with
  | .obj fields =>
    (match assocGet fields "channelId" with | some (.str _) => true | _ => false) &&
    (match assocGet fields "messageId" with | some (.str _) => true | _ => false) &&
    (match assocGet fields "userId" with | some (.str _) => true | _ => false) &&
    (match assocGet fields "content" with | some (.str _) => true | _ => false) &&
    (match assocGet fields "createdAt" with | some (.str _) => true | _ => false) &&
    (match assocGet fields "editedAt" with | some (.str _) => true | some .null => true | _ => false) &&
    (match assocGet fields "metadata" with | some (.obj _) => true | _ => false)
  | _ => false

/-! ### `ChannelManager` (src/unnamed/part_005): channelId -> set of userIds -/

structure ChannelManager : Type where
  channels : List (String × List String)
deriving DecidableEq

def ChannelManager.addUserToChannel (cm : ChannelManager) (channelId userId : String) :
    ChannelManager :=
  ⟨match assocGet cm.channels channelId with
   | none => cm.channels ++ [(channelId, [userId])]
   | some users =>
     assocSet cm.channels channelId (if userId ∈ users then users else users ++ [userId])⟩

def ChannelManager.removeUserFromChannel (cm : ChannelManager) (channelId userId : String) :
    ChannelManager :=
  ⟨match assocGet cm.channels channelId with
   | none => cm.channels
   | some users =>
     if (users.erase userId).isEmpty then assocDel cm.channels channelId
     else assocSet cm.channels channelId (users.erase userId)⟩

def ChannelManager.getUsersInChannel (cm : ChannelManager) (channelId : String) : List String :=
  (assocGet cm.channels channelId).getD []

def ChannelManager.getChannels (cm : ChannelManager) : List String :=
  cm.channels.map Prod.fst

/-- Well-formedness of the state as the image of a real JS `Map` of `Set`s:
keys unique, member sets duplicate-free and (the tracked invariant) non-empty. -/
def ChannelManager.WF (cm : ChannelManager) : Prop :=
  (cm.channels.map Prod.fst).Nodup ∧ ∀ p ∈ cm.channels, p.2 ≠ [] ∧ p.2.Nodup

instance : DecidablePred ChannelManager.WF := fun cm => by
  unfold ChannelManager.WF; infer_instance

/-! ### `UserConnectionManager` (connection registry): userId -> set of sockets -/

/-- A WebSocket handle: identity plus behaviour of this delivery round
(`isOpen` models `readyState === WebSocket.OPEN`; `sendThrows` models
`ws.send` raising). -/
structure WSConn : Type where
  id : Nat
  isOpen : Bool
  sendThrows : Bool
deriving DecidableEq

structure UserConnectionManager : Type where
  userConnections : List (String × List WSConn)
deriving DecidableEq

def UserConnectionManager.addUserConnection (ucm : UserConnectionManager)
    (userId : String) (ws : WSConn) : UserConnectionManager :=
  ⟨match assocGet ucm.userConnections userId with
   | none => ucm.userConnections ++ [(userId, [ws])]
   | some conns =>
     assocSet ucm.userConnections userId (if ws ∈ conns then conns else conns ++ [ws])⟩

def UserConnectionManager.removeUserConnection (ucm : UserConnectionManager)
    (userId : String) (ws : WSConn) : UserConnectionManager :=
  ⟨match assocGet ucm.userConnections userId with
   | none => ucm.userConnections
   | some conns =>
     if (conns.erase ws).isEmpty then assocDel ucm.userConnections userId
     else assocSet ucm.userConnections userId (conns.erase ws)⟩

def UserConnectionManager.getUserConnections (ucm : UserConnectionManager)
    (userId : String) : List WSConn :=
  (assocGet ucm.userConnections userId).getD []

def UserConnectionManager.getAllConnectedUsers (ucm : UserConnectionManager) : List String :=
  ucm.userConnections.map Prod.fst

def UserConnectionManager.isUserConnected (ucm : UserConnectionManager) (userId : String) :
    Bool :=
  match assocGet ucm.userConnections userId with
  | none => false
  | some conns => !conns.isEmpty

/-- One iteration of the `connections.forEach` body of `sendToUser`. -/
inductive SendAttempt (α : Type) : Type where
  | sent (wsId : Nat) (payload : α) : SendAttempt α
  | threw (wsId : Nat) : SendAttempt α
  | skipped (wsId : Nat) : SendAttempt α
deriving DecidableEq

/-- The forEach body: an open socket is sent to (counting it on success, the
catch block absorbing a throw); a non-open socket is skipped. -/
def sendAttemptOf {α : Type} (message : α) (ws : WSConn) : SendAttempt α :=
  if ws.isOpen then
    if ws.sendThrows then .threw ws.id else .sent ws.id message
  else .skipped ws.id

/-- `UserConnectionManager.sendToUser`: returns `sentCount > 0` together with
the trace of per-connection attempts. -/
def UserConnectionManager.sendToUser {α : Type} (ucm : UserConnectionManager)
    (userId : String) (message : α) : Bool × List (SendAttempt α) :=
  match assocGet ucm.userConnections userId with
  | none => (false, [])
  | some connections =>
    if connections.isEmpty then (false, [])
    else
      let r := connections.foldl (fun (acc : Nat × List (SendAttempt α)) ws =>
        if ws.isOpen then
          if ws.sendThrows then (acc.1, acc.2 ++ [.threw ws.id])
          else (acc.1 + 1, acc.2 ++ [.sent ws.id message])
        else (acc.1, acc.2 ++ [.skipped ws.id])) (0, [])
      (decide (0 < r.1), r.2)

def UserConnectionManager.WF (ucm : UserConnectionManager) : Prop :=
  (ucm.userConnections.map Prod.fst).Nodup ∧
    ∀ p ∈ ucm.userConnections, p.2 ≠ [] ∧ p.2.Nodup

instance : DecidablePred UserConnectionManager.WF := fun ucm => by
  unfold UserConnectionManager.WF; infer_instance

/-! ### `MessageSubscriberService` (fanout engine, src/unnamed/part_004) -/

/-- Engine state: per-channel handler overrides (handlers named by an id, their
behaviour supplied separately), the tracked bus subscriptions, and the
connection flag. -/
structure MessageSubscriberService : Type where
  messageHandlers : List (String × Nat)
  subscribedChannels : List String
  isConnected : Bool
deriving DecidableEq

/-- Calls made on the Redis pub/sub client. -/
inductive BusOp : Type where
  | subscribe (channelId : String) : BusOp
  | unsubscribe (channelId : String) : BusOp
deriving DecidableEq

def notConnectedError : String :=
  "MessageSubscriberService not connected. Call connect() first."

def MessageSubscriberService.subscribeTo (svc : MessageSubscriberService)
    (channelId : String) : Except String (MessageSubscriberService × List BusOp) :=
  if !svc.isConnected then .error notConnectedError
  else if channelId ∈ svc.subscribedChannels then .ok (svc, [])
  else .ok ({ svc with subscribedChannels := svc.subscribedChannels ++ [channelId] },
            [.subscribe channelId])

def MessageSubscriberService.unsubscribeFrom (svc : MessageSubscriberService)
    (channelId : String) : Except String (MessageSubscriberService × List BusOp) :=
  if !svc.isConnected then .error notConnectedError
  else if channelId ∉ svc.subscribedChannels then .ok (svc, [])
  else .ok ({ svc with subscribedChannels := svc.subscribedChannels.erase channelId },
            [.unsubscribe channelId])

def MessageSubscriberService.onChannelMessage (svc : MessageSubscriberService)
    (channelId : String) (handlerId : Nat) : MessageSubscriberService :=
  { svc with messageHandlers := assocSet svc.messageHandlers channelId handlerId }

def MessageSubscriberService.removeChannelMessageHandler (svc : MessageSubscriberService)
    (channelId : String) : MessageSubscriberService :=
  { svc with messageHandlers := assocDel svc.messageHandlers channelId }

/-- `this.messageHandlers.get(message.channelId)`: the runtime key can be any
JS value (or `undefined`); only a string key can hit the map. -/
def handlerForKey (handlers : List (String × Nat)) : Option JsonValue → Option Nat
  | some (.str s) => assocGet handlers s
  | _ => none

/-- `this.channelManager.getUsersInChannel(message.channelId)` with a runtime
key that can be any JS value; `Array.from(undefined || [])` style miss is `[]`. -/
def usersForKey (cm : ChannelManager) : Option JsonValue → List String
  | some (.str s) => cm.getUsersInChannel s
  | _ => []

/-- Observable actions of the dispatch path. -/
inductive FanoutEffect : Type where
  | invokeHandler (handlerId : Nat) (arg : JsonValue) : FanoutEffect
  | send (userId : String) (payload : JsonValue) : FanoutEffect

/-- The body of a registered handler; `true` means it throws. -/
def runHandler (hb : Nat → JsonValue → Bool) (handlerId : Nat) (message : JsonValue) :
    Except Unit Unit :=
  if hb handlerId message then .error () else .ok ()

/-- `try { handler(message) } catch (error) { log.error(...) }`. -/
def catchHandlerError : Except Unit Unit → Unit := fun _ => ()

/-- `broadcastToChannel`: look the channel membership up under the payload's
`channelId` and invoke `this.sendToUser(userId, message)` per member.  The
property access throws on a `null` message. -/
def MessageSubscriberService.broadcastToChannel (_svc : MessageSubscriberService)
    (cm : ChannelManager) (message : JsonValue) : Except Unit (List FanoutEffect) :=
  match jsGetProp message "channelId" with
  | .error e => .error e
  | .ok key =>
    .ok ((usersForKey cm key).map (fun userId => FanoutEffect.send userId message))

/-- `handleMessage`: route to the handler registered for the payload's
`channelId` (its exceptions caught), else fall back to the broadcast. -/
def MessageSubscriberService.handleMessage (svc : MessageSubscriberService)
    (cm : ChannelManager) (hb : Nat → JsonValue → Bool) (message : JsonValue) :
    Except Unit (List FanoutEffect) :=
  match jsGetProp message "channelId" with
  | .error e => .error e
  | .ok key =>
    match handlerForKey svc.messageHandlers key with
    | some handlerId =>
      let _ := catchHandlerError (runHandler hb handlerId message)
      .ok [FanoutEffect.invokeHandler handlerId message]
    | none => svc.broadcastToChannel cm message

/-- The wire envelope `{ type: 'message', message }` built by the engine's
`sendToUser` (its `JSON.stringify` image is determined by this value). -/
def wrapEnvelope (message : JsonValue) : JsonValue :=
  .obj [("type", .str "message"), ("message", message)]

/-- Engine-level `sendToUser`: wrap and delegate to the connection registry.
Note: no connection-state check is performed. -/
def MessageSubscriberService.sendToUser (_svc : MessageSubscriberService)
    (ucm : UserConnectionManager) (userId : String) (message : JsonValue) :
    Bool × List (SendAttempt JsonValue) :=
  let wrappedMessage := wrapEnvelope message
  ucm.sendToUser userId wrappedMessage

/-- The subscription callback registered in `subscribeTo`: the `try` block
wraps both `JSON.parse` (`none` models a parse throw) and `handleMessage`;
anything thrown inside is logged and the payload dropped.  `channel` is the
bus topic the callback fires on; it is used only for logging. -/
def MessageSubscriberService.onBusPayload (svc : MessageSubscriberService)
    (cm : ChannelManager) (hb : Nat → JsonValue → Bool) (channel : String)
    (parsed : Option JsonValue) : List FanoutEffect :=
  match channel, parsed with
  | _, none => []
  | _, some message =>
    match svc.handleMessage cm hb message with
    | .ok effects => effects
    | .error () => []

/-- A sequence of bus deliveries on subscriptions of one engine (the engine
state is not mutated by the callback, so deliveries chain directly). -/
def MessageSubscriberService.processPayloads (svc : MessageSubscriberService)
    (cm : ChannelManager) (hb : Nat → JsonValue → Bool) :
    List (String × Option JsonValue) → List FanoutEffect
  | [] => []
  | (channel, parsed) :: rest =>
    svc.onBusPayload cm hb channel parsed ++ svc.processPayloads cm hb rest

/-! ### Sequence allocation (src/unnamed/part_003) and the write path -/

/-- The Redis key `channel:${channelId}:message_counter`. -/
def counterKey (channelId : String) : String :=
  "channel:" ++ channelId ++ ":message_counter"

/-- Per-key atomic counters held by Redis. -/
structure RedisCounters : Type where
  counters : List (String × Nat)
deriving DecidableEq

/-- Redis `INCR`: an absent key counts as 0; the increment is atomic and
returns the new value. -/
def redisIncr (rc : RedisCounters) (key : String) : RedisCounters × Nat :=
  let v := (assocGet rc.counters key).getD 0 + 1
  (⟨assocSet rc.counters key v⟩, v)

/-- `MessageIDService.getNextMessageId`: one `INCR` on the channel's counter
key; a backend failure (`allocError`) is caught, logged and rethrown
unchanged, leaving the counter untouched. -/
def MessageIDService.getNextMessageId (rc : RedisCounters) (allocError : Option String)
    (channelId : String) : Except String (RedisCounters × Nat) :=
  match allocError with
  | some e => .error e
  | none => .ok (redisIncr rc (counterKey channelId))

/-- A row of the Cassandra `messages` table as bound by the INSERT. -/
structure MessageRow : Type where
  channel_id : String
  message_id : String
  user_id : String
  content : String
  created_at : Nat
  edited_at : Option Nat
deriving DecidableEq

structure CassandraStore : Type where
  rows : List MessageRow
deriving DecidableEq

/-- External calls issued by one `saveMessage` invocation, in order. -/
inductive ExtCall : Type where
  | incrCall (key : String) : ExtCall
  | insertCall (row : MessageRow) : ExtCall
deriving DecidableEq

/-- `MessageService.saveMessage`: allocate the per-channel id, capture the
clock (`now`), attempt the single INSERT, and construct the returned message.
`allocError`/`writeError` model failures of the two external calls; either
failure propagates to the caller (`Except.error`).  The result carries the
final Redis and Cassandra states and the trace of external calls attempted. -/
def MessageService.saveMessage (rc : RedisCounters) (store : CassandraStore)
    (allocError writeError : Option String) (channelId userId content : String)
    (now : Nat) :
    Except String ChimeMessage × RedisCounters × CassandraStore × List ExtCall :=
  match MessageIDService.getNextMessageId rc allocError channelId with
  | .error e => (.error e, rc, store, [.incrCall (counterKey channelId)])
  | .ok (rc', messageId) =>
    let row : MessageRow :=
      { channel_id := channelId, message_id := Nat.repr messageId, user_id := userId,
        content := content, created_at := now, edited_at := none }
    match writeError with
    | some e => (.error e, rc', store, [.incrCall (counterKey channelId), .insertCall row])
    | none =>
      (.ok { channelId := channelId, messageId := Nat.repr messageId, userId := userId,
             content := content, createdAt := Nat.repr now, editedAt := none,
             metadata := [] },
       rc', ⟨store.rows ++ [row]⟩,
       [.incrCall (counterKey channelId), .insertCall row])

/-- A serialization of allocation completions across concurrent callers: each
entry is the channel of one `saveMessage` call, in the order the (atomic)
allocation steps complete; every call succeeds.  Returns the final states and
the messages in that same order. -/
def runSaves (now : Nat) :
    RedisCounters → CassandraStore → List (String × String × String) →
      RedisCounters × CassandraStore × List ChimeMessage
  | rc, store, [] => (rc, store, [])
  | rc, store, (channelId, userId, content) :: rest =>
    match MessageService.saveMessage rc store none none channelId userId content now with
    | (.ok m, rc', store', _) =>
      ((runSaves now rc' store' rest).1, (runSaves now rc' store' rest).2.1,
        m :: (runSaves now rc' store' rest).2.2)
    | (.error _, rc', store', _) => runSaves now rc' store' rest

/-- The messageIds of the returned messages belonging to channel `c`, in
completion order. -/
def messageIdsFor (c : String) (out : List ChimeMessage) : List String :=
  (out.filter (fun m => m.channelId = c)).map ChimeMessage.messageId

/-! ### Monotonicity of per-channel ids along a serialization of allocations -/

/-- The numeric ids channel `c` receives along a run, given its counter's
current value: each save on `c` yields the incremented value, saves on other
channels leave it alone. -/
def chanIds (c : String) : Nat → List String → List Nat
  | _, [] => []
  | cnt, ch :: rest =>
    if ch = c then (cnt + 1) :: chanIds c (cnt + 1) rest else chanIds c cnt rest

/-! ### Remaining definitions used by the claim statements -/

/-- The userIds targeted by the `send` effects of a dispatch, in order. -/
def sendTargets (effects : List FanoutEffect) : List String :=
  effects.filterMap (fun eff =>
    match eff with
    | .send userId _ => some userId
    | _ => none)

/-- A concrete message fixture. -/
def sampleMessage : ChimeMessage :=
  { channelId := "c1", messageId := "1", userId := "u1", content := "hi",
    createdAt := "t0", editedAt := none, metadata := [] }

/-! ### Theorems -/

theorem assocGet_set_self {α : Type} (m : List (String × α)) (k : String) (v : α) :
    assocGet (assocSet m k v) k = some v := by
  induction m with
  | nil => simp [assocGet, assocSet]
  | cons p rest ih =>
    obtain ⟨k', v'⟩ := p
    by_cases h : k' = k
    · simp [assocSet, assocGet, h]
    · simp [assocSet, assocGet, h, ih]

theorem assocGet_set_ne {α : Type} (m : List (String × α)) (k k' : String) (v : α)
    (h : k ≠ k') : assocGet (assocSet m k v) k' = assocGet m k' := by
  induction m with
  | nil => simp [assocGet, assocSet, h]
  | cons p rest ih =>
    obtain ⟨q, w⟩ := p
    by_cases hq : q = k
    · subst hq
      simp [assocSet, assocGet, h, Ne.symm h]
    · by_cases hq' : q = k'
      · subst hq'
        simp [assocSet, assocGet, hq, Ne.symm h]
      · simp [assocSet, assocGet, hq, hq', ih]

theorem assocSet_get_self {α : Type} (m : List (String × α)) (k : String) (v : α)
    (h : assocGet m k = some v) : assocSet m k v = m := by
  induction m with
  | nil => simp [assocGet] at h
  | cons p rest ih =>
    obtain ⟨k', v'⟩ := p
    by_cases hp : k' = k
    · subst hp
      simp [assocGet] at h
      simp [assocSet, h]
    · simp [assocGet, hp] at h
      simp [assocSet, hp, ih h]

theorem assocGet_eq_none_iff {α : Type} (m : List (String × α)) (k : String) :
    assocGet m k = none ↔ k ∉ m.map Prod.fst := by
  induction m with
  | nil => simp [assocGet]
  | cons p rest ih =>
    obtain ⟨k', v'⟩ := p
    by_cases hp : k' = k
    · subst hp
      simp [assocGet]
    · simp only [assocGet, if_neg hp, List.map_cons, List.mem_cons, ih]
      constructor
      · intro hnm h'
        rcases h' with h' | h'
        · exact hp h'.symm
        · exact hnm h'
      · intro hnm h'
        exact hnm (Or.inr h')

theorem assocGet_isSome_of_mem_keys {α : Type} (m : List (String × α)) (k : String)
    (h : k ∈ m.map Prod.fst) : ∃ v, assocGet m k = some v := by
  cases hg : assocGet m k with
  | none => exact absurd h ((assocGet_eq_none_iff m k).mp hg)
  | some v => exact ⟨v, rfl⟩

theorem assocDel_sublist {α : Type} (m : List (String × α)) (k : String) :
    (assocDel m k).Sublist m := by
  induction m with
  | nil => simp [assocDel]
  | cons p rest ih =>
    obtain ⟨k', v'⟩ := p
    by_cases hp : k' = k
    · simp [assocDel, hp]
    · simp only [assocDel, if_neg hp]
      exact List.Sublist.cons₂ _ ih

theorem mem_assocSet {α : Type} {m : List (String × α)} {k : String} {v : α} {p : String × α}
    (h : p ∈ assocSet m k v) : p ∈ m ∨ p = (k, v) := by
  induction m with
  | nil => simp [assocSet] at h; simp [h]
  | cons q rest ih =>
    obtain ⟨k', v'⟩ := q
    by_cases hq : k' = k
    · simp only [assocSet, if_pos hq, List.mem_cons] at h
      rcases h with h | h
      · right; exact h
      · left; exact List.mem_cons_of_mem _ h
    · simp only [assocSet, if_neg hq, List.mem_cons] at h
      rcases h with h | h
      · left; simp [h]
      · rcases ih h with h' | h'
        · left; exact List.mem_cons_of_mem _ h'
        · right; exact h'

theorem keys_assocSet_of_mem {α : Type} (m : List (String × α)) (k : String) (v : α)
    (h : k ∈ m.map Prod.fst) :
    (assocSet m k v).map Prod.fst = m.map Prod.fst := by
  induction m with
  | nil => simp at h
  | cons p rest ih =>
    obtain ⟨k', v'⟩ := p
    by_cases hp : k' = k
    · simp [assocSet, hp]
    · simp only [List.map_cons, List.mem_cons] at h
      rcases h with h | h
      · exact absurd h.symm hp
      · simp [assocSet, hp, ih h]

theorem keys_assocSet_of_not_mem {α : Type} (m : List (String × α)) (k : String) (v : α)
    (h : k ∉ m.map Prod.fst) :
    (assocSet m k v).map Prod.fst = m.map Prod.fst ++ [k] := by
  induction m with
  | nil => simp [assocSet]
  | cons p rest ih =>
    obtain ⟨k', v'⟩ := p
    simp only [List.map_cons, List.mem_cons] at h
    push_neg at h
    have hne : ¬ k' = k := fun hp => h.1 hp.symm
    simp [assocSet, hne, ih h.2]

theorem keys_assocDel_nodup_not_mem {α : Type} (m : List (String × α)) (k : String)
    (hnd : (m.map Prod.fst).Nodup) : k ∉ (assocDel m k).map Prod.fst := by
  induction m with
  | nil => simp [assocDel]
  | cons p rest ih =>
    obtain ⟨k', v'⟩ := p
    simp only [List.map_cons, List.nodup_cons] at hnd
    by_cases hp : k' = k
    · simp only [assocDel, if_pos hp]
      subst hp
      exact hnd.1
    · simp only [assocDel, if_neg hp, List.map_cons, List.mem_cons]
      push_neg
      exact ⟨fun h => hp h.symm, ih hnd.2⟩

theorem jsGetProp_toJson_channelId (m : ChimeMessage) :
    jsGetProp m.toJson "channelId" = .ok (some (.str m.channelId)) := by
  simp [ChimeMessage.toJson, jsGetProp, assocGet]

/-! ### Decimal serialization: `Nat.repr` round-trips through `String.toNat?` -/

theorem digitChar_val {d : Nat} (h : d < 10) :
    (Nat.digitChar d).toNat - '0'.toNat = d := by
  interval_cases d <;> rfl

theorem digitChar_isDigit {d : Nat} (h : d < 10) :
    (Nat.digitChar d).isDigit = true := by
  interval_cases d <;> rfl

theorem toDigitsCore_eq (fuel : Nat) :
    ∀ (n : Nat) (acc : List Char), 0 < n → n ≤ fuel →
      Nat.toDigitsCore 10 fuel n acc =
        ((Nat.digits 10 n).map Nat.digitChar).reverse ++ acc := by
  induction fuel with
  | zero => intro n acc hn hf; omega
  | succ fuel ih =>
    intro n acc hn hf
    have hdig : Nat.digits 10 n = n % 10 :: Nat.digits 10 (n / 10) :=
      Nat.digits_def' (by norm_num) hn
    by_cases hq : n / 10 = 0
    · simp [Nat.toDigitsCore, hq, hdig]
    · have hlt : n / 10 < n := Nat.div_lt_self hn (by norm_num)
      have hle : n / 10 ≤ fuel := by omega
      have hpos : 0 < n / 10 := Nat.pos_of_ne_zero hq
      simp only [Nat.toDigitsCore, hq, if_false]
      rw [ih (n / 10) (Nat.digitChar (n % 10) :: acc) hpos hle, hdig]
      simp

theorem foldl_digits_val (L : List Nat) (hL : ∀ d ∈ L, d < 10) (a : Nat) :
    ((L.map Nat.digitChar).reverse).foldl (fun n c => n * 10 + (c.toNat - '0'.toNat)) a
      = a * 10 ^ L.length + Nat.ofDigits 10 L := by
  induction L generalizing a with
  | nil => simp
  | cons d L ih =>
    have hd : d < 10 := hL d (List.mem_cons_self d L)
    have hL' : ∀ x ∈ L, x < 10 := fun x hx => hL x (List.mem_cons_of_mem d hx)
    simp only [List.map_cons, List.reverse_cons, List.foldl_append, List.foldl_cons,
      List.foldl_nil, ih hL', List.length_cons, Nat.ofDigits_cons]
    rw [digitChar_val hd]
    ring

theorem data_natRepr (n : Nat) : (Nat.repr n).data = Nat.toDigits 10 n := rfl

theorem toNat?_natRepr (n : Nat) : (Nat.repr n).toNat? = some n := by
  by_cases hn : n = 0
  · subst hn
    have hdata : (Nat.repr 0).data = ['0'] := rfl
    have hisnat : (Nat.repr 0).isNat = true := by
      rw [String.isNat]
      have hempty : (Nat.repr 0).isEmpty = false := rfl
      have hall : (Nat.repr 0).all (·.isDigit) = true := by
        rw [String.all_iff]
        intro c hc
        rw [hdata] at hc
        simp at hc
        subst hc
        rfl
      rw [hempty, hall]
      rfl
    rw [String.toNat?, hisnat]
    simp only [if_true]
    rw [String.foldl_eq, hdata]
    rfl
  · have hpos : 0 < n := Nat.pos_of_ne_zero hn
    have hdigits : Nat.toDigits 10 n = ((Nat.digits 10 n).map Nat.digitChar).reverse := by
      have := toDigitsCore_eq (n + 1) n [] hpos (by omega)
      simpa [Nat.toDigits] using this
    have hlt : ∀ d ∈ Nat.digits 10 n, d < 10 :=
      fun d hd => Nat.digits_lt_base (by norm_num) hd
    have hne : Nat.digits 10 n ≠ [] := Nat.digits_ne_nil_iff_ne_zero.mpr hn
    have hdata : (Nat.repr n).data = ((Nat.digits 10 n).map Nat.digitChar).reverse := by
      rw [data_natRepr, hdigits]
    have hisnat : (Nat.repr n).isNat = true := by
      rw [String.isNat]
      have hempty : (Nat.repr n).isEmpty = false := by
        cases h : (Nat.repr n).isEmpty
        · rfl
        · exfalso
          have hs := (String.isEmpty_iff _).mp h
          have hd : (Nat.repr n).data = [] := by rw [hs]
          rw [hdata] at hd
          simp at hd
          exact hne hd
      have hall : (Nat.repr n).all (·.isDigit) = true := by
        rw [String.all_iff]
        intro c hc
        rw [hdata] at hc
        simp only [List.mem_reverse, List.mem_map] at hc
        obtain ⟨d, hd, rfl⟩ := hc
        exact digitChar_isDigit (hlt d hd)
      rw [hempty, hall]
      rfl
    rw [String.toNat?, hisnat]
    simp only [if_true]
    rw [String.foldl_eq]
    rw [hdata, foldl_digits_val (Nat.digits 10 n) hlt 0]
    simp [Nat.ofDigits_digits]

/-! ### Injectivity of the counter-key derivation -/

theorem counterKey_injective {c1 c2 : String} (h : counterKey c1 = counterKey c2) :
    c1 = c2 := by
  unfold counterKey at h
  have hd : ("channel:" ++ c1 ++ ":message_counter").data
      = ("channel:" ++ c2 ++ ":message_counter").data := by rw [h]
  simp only [String.data_append, List.append_assoc] at hd
  have h1 := List.append_cancel_left hd
  have h2 := List.append_cancel_right h1
  cases c1 with
  | mk l1 =>
    cases c2 with
    | mk l2 =>
      exact congrArg String.mk h2

theorem chanIds_bound_pairwise (c : String) (l : List String) :
    ∀ cnt : Nat, (∀ x ∈ chanIds c cnt l, cnt < x) ∧ List.Pairwise (· < ·) (chanIds c cnt l) := by
  induction l with
  | nil => intro cnt; simp [chanIds]
  | cons ch rest ih =>
    intro cnt
    by_cases hc : ch = c
    · simp only [chanIds, if_pos hc]
      obtain ⟨ihb, ihp⟩ := ih (cnt + 1)
      refine ⟨?_, ?_⟩
      · intro x hx
        rcases List.mem_cons.mp hx with h | h
        · omega
        · have := ihb x h; omega
      · exact List.pairwise_cons.mpr ⟨fun x hx => ihb x hx, ihp⟩
    · simp only [chanIds, if_neg hc]
      exact ih cnt

theorem messageIdsFor_cons (c : String) (m : ChimeMessage) (out : List ChimeMessage) :
    messageIdsFor c (m :: out) =
      if m.channelId = c then m.messageId :: messageIdsFor c out else messageIdsFor c out := by
  by_cases h : m.channelId = c <;> simp [messageIdsFor, List.filter_cons, h]

theorem runSaves_cons_msgs (now : Nat) (rc : RedisCounters) (store : CassandraStore)
    (ch uid ct : String) (rest : List (String × String × String)) :
    (runSaves now rc store ((ch, uid, ct) :: rest)).2.2 =
      ({ channelId := ch,
         messageId := Nat.repr ((assocGet rc.counters (counterKey ch)).getD 0 + 1),
         userId := uid, content := ct, createdAt := Nat.repr now, editedAt := none,
         metadata := [] } : ChimeMessage) ::
      (runSaves now
        ⟨assocSet rc.counters (counterKey ch) ((assocGet rc.counters (counterKey ch)).getD 0 + 1)⟩
        ⟨store.rows ++ [({ channel_id := ch,
                           message_id := Nat.repr ((assocGet rc.counters (counterKey ch)).getD 0 + 1),
                           user_id := uid, content := ct, created_at := now,
                           edited_at := none } : MessageRow)]⟩
        rest).2.2 := rfl

theorem runSaves_ids_eq (now : Nat) (c : String) (tr : List (String × String × String)) :
    ∀ (rc : RedisCounters) (store : CassandraStore),
      messageIdsFor c (runSaves now rc store tr).2.2 =
        (chanIds c ((assocGet rc.counters (counterKey c)).getD 0) (tr.map Prod.fst)).map
          Nat.repr := by
  induction tr with
  | nil => intro rc store; simp [runSaves, messageIdsFor, chanIds]
  | cons p rest ih =>
    intro rc store
    obtain ⟨ch, uid, ct⟩ := p
    rw [runSaves_cons_msgs]
    simp only [List.map_cons]
    by_cases hc : ch = c
    · subst hc
      rw [messageIdsFor_cons]
      simp only [if_pos rfl, chanIds, if_pos rfl]
      rw [ih]
      simp [assocGet_set_self]
    · rw [messageIdsFor_cons]
      simp only [if_neg hc, chanIds, if_neg hc]
      rw [ih]
      have hkey : counterKey ch ≠ counterKey c :=
        fun h => hc (counterKey_injective h)
      rw [assocGet_set_ne _ _ _ _ hkey]

/-! ### Helper lemmas for the dispatch, registry and membership claims -/

theorem assocGet_mem {α : Type} {m : List (String × α)} {k : String} {v : α}
    (h : assocGet m k = some v) : (k, v) ∈ m := by
  induction m with
  | nil => simp [assocGet] at h
  | cons p rest ih =>
    obtain ⟨k', v'⟩ := p
    by_cases hp : k' = k
    · subst hp
      simp [assocGet] at h
      simp [h]
    · simp [assocGet, hp] at h
      exact List.mem_cons_of_mem _ (ih h)

theorem mem_keys_of_assocGet_some {α : Type} {m : List (String × α)} {k : String} {v : α}
    (h : assocGet m k = some v) : k ∈ m.map Prod.fst := by
  by_contra hk
  rw [← assocGet_eq_none_iff] at hk
  rw [h] at hk
  exact Option.noConfusion hk

theorem assocGet_append_single_self {α : Type} (m : List (String × α)) (k : String) (v : α)
    (h : assocGet m k = none) : assocGet (m ++ [(k, v)]) k = some v := by
  induction m with
  | nil => simp [assocGet]
  | cons p rest ih =>
    obtain ⟨k', v'⟩ := p
    by_cases hp : k' = k
    · simp [assocGet, hp] at h
    · simp [assocGet, hp] at h ⊢
      exact ih h

theorem nodup_append_singleton {α : Type} (l : List α) (a : α) :
    (l ++ [a]).Nodup ↔ a ∉ l ∧ l.Nodup := by
  simp [List.nodup_append]
  tauto

/-- Characterization of `handleMessage` on a well-formed message object:
routing is keyed on the payload's own `channelId` field. -/
theorem handleMessage_toJson_char (svc : MessageSubscriberService) (cm : ChannelManager)
    (hb : Nat → JsonValue → Bool) (m : ChimeMessage) :
    svc.handleMessage cm hb m.toJson =
      match assocGet svc.messageHandlers m.channelId with
      | some handlerId => .ok [FanoutEffect.invokeHandler handlerId m.toJson]
      | none => .ok ((cm.getUsersInChannel m.channelId).map
          (fun userId => FanoutEffect.send userId m.toJson)) := by
  cases hh : assocGet svc.messageHandlers m.channelId with
  | some handlerId =>
    simp [MessageSubscriberService.handleMessage, jsGetProp_toJson_channelId,
      handlerForKey, hh]
  | none =>
    simp [MessageSubscriberService.handleMessage, jsGetProp_toJson_channelId,
      handlerForKey, hh, MessageSubscriberService.broadcastToChannel, usersForKey]

/-- Unrolling the `forEach` accumulation of `UserConnectionManager.sendToUser`. -/
theorem sendFold_eq {α : Type} (payload : α) (conns : List WSConn) :
    ∀ (n : Nat) (acc : List (SendAttempt α)),
      conns.foldl (fun (acc : Nat × List (SendAttempt α)) ws =>
        if ws.isOpen then
          if ws.sendThrows then (acc.1, acc.2 ++ [.threw ws.id])
          else (acc.1 + 1, acc.2 ++ [.sent ws.id payload])
        else (acc.1, acc.2 ++ [.skipped ws.id])) (n, acc)
      = (n + conns.countP (fun ws => ws.isOpen && !ws.sendThrows),
         acc ++ conns.map (sendAttemptOf payload)) := by
  induction conns with
  | nil => intro n acc; simp
  | cons ws rest ih =>
    intro n acc
    by_cases ho : ws.isOpen
    · by_cases ht : ws.sendThrows
      · simp [List.foldl_cons, ho, ht, ih, List.countP_cons, sendAttemptOf]
      · simp [List.foldl_cons, ho, ht, ih, List.countP_cons, sendAttemptOf]
        omega
    · simp [List.foldl_cons, ho, ih, List.countP_cons, sendAttemptOf]

/-- `sendToUser` in closed form when the user has an entry. -/
theorem sendToUser_some_char {α : Type} (ucm : UserConnectionManager) (uid : String)
    (payload : α) (conns : List WSConn)
    (h : assocGet ucm.userConnections uid = some conns) :
    ucm.sendToUser uid payload =
      (conns.any (fun ws => ws.isOpen && !ws.sendThrows),
       conns.map (sendAttemptOf payload)) := by
  unfold UserConnectionManager.sendToUser
  rw [h]
  dsimp only
  by_cases he : conns.isEmpty
  · rw [List.isEmpty_iff] at he
    subst he
    simp
  · rw [if_neg he, sendFold_eq]
    simp only [Nat.zero_add, List.nil_append]
    have hdec : (decide (0 < conns.countP (fun ws => ws.isOpen && !ws.sendThrows)))
        = conns.any (fun ws => ws.isOpen && !ws.sendThrows) := by
      cases hA : conns.any (fun ws => ws.isOpen && !ws.sendThrows) with
      | true =>
        rw [List.any_eq_true] at hA
        obtain ⟨ws, hm, hw⟩ := hA
        exact decide_eq_true (List.countP_pos_iff.mpr ⟨ws, hm, hw⟩)
      | false =>
        refine decide_eq_false ?_
        intro hp
        rw [List.countP_pos_iff] at hp
        obtain ⟨ws, hm, hw⟩ := hp
        rw [List.any_eq_false] at hA
        exact absurd hw (by simpa using hA ws hm)
    rw [hdec]

/-- WF of the map-of-sets after appending a fresh singleton entry
(the `if (!map.has(k)) map.set(k, new Set())` path followed by `add`). -/
theorem wf_parts_append_new {α : Type} (m : List (String × List α)) (k : String) (x : α)
    (hg : assocGet m k = none)
    (h1 : (m.map Prod.fst).Nodup) (h2 : ∀ p ∈ m, p.2 ≠ [] ∧ p.2.Nodup) :
    ((m ++ [(k, [x])]).map Prod.fst).Nodup
    ∧ ∀ p ∈ m ++ [(k, [x])], p.2 ≠ [] ∧ p.2.Nodup := by
  have hkeys : k ∉ m.map Prod.fst := (assocGet_eq_none_iff m k).mp hg
  constructor
  · simp only [List.map_append, List.map_cons, List.map_nil]
    rw [nodup_append_singleton]
    exact ⟨hkeys, h1⟩
  · intro p hp
    rcases List.mem_append.mp hp with hp | hp
    · exact h2 p hp
    · simp at hp
      subst hp
      simp

/-- WF of the map-of-sets after `Set.add` on an existing entry. -/
theorem wf_parts_set_add {α : Type} [DecidableEq α] (m : List (String × List α))
    (k : String) (x : α) (s : List α) (hg : assocGet m k = some s)
    (h1 : (m.map Prod.fst).Nodup) (h2 : ∀ p ∈ m, p.2 ≠ [] ∧ p.2.Nodup) :
    ((assocSet m k (if x ∈ s then s else s ++ [x])).map Prod.fst).Nodup
    ∧ ∀ p ∈ assocSet m k (if x ∈ s then s else s ++ [x]), p.2 ≠ [] ∧ p.2.Nodup := by
  have hmem : k ∈ m.map Prod.fst := mem_keys_of_assocGet_some hg
  have hs := h2 (k, s) (assocGet_mem hg)
  constructor
  · rw [keys_assocSet_of_mem m k _ hmem]
    exact h1
  · intro p hp
    rcases mem_assocSet hp with hp | hp
    · exact h2 p hp
    · subst hp
      by_cases hx : x ∈ s
      · simpa [hx] using hs
      · refine ⟨by simp [hx], ?_⟩
        simp only [hx, if_false]
        rw [nodup_append_singleton]
        exact ⟨hx, hs.2⟩

/-- WF of the map-of-sets after deleting an entry. -/
theorem wf_parts_del {α : Type} (m : List (String × List α)) (k : String)
    (h1 : (m.map Prod.fst).Nodup) (h2 : ∀ p ∈ m, p.2 ≠ [] ∧ p.2.Nodup) :
    ((assocDel m k).map Prod.fst).Nodup
    ∧ ∀ p ∈ assocDel m k, p.2 ≠ [] ∧ p.2.Nodup := by
  constructor
  · exact ((assocDel_sublist m k).map Prod.fst).nodup h1
  · intro p hp
    exact h2 p ((assocDel_sublist m k).subset hp)

/-- WF of the map-of-sets after `Set.delete` leaving a non-empty set. -/
theorem wf_parts_set_erase {α : Type} [DecidableEq α] (m : List (String × List α))
    (k : String) (x : α) (s : List α) (hg : assocGet m k = some s)
    (he : ¬ (s.erase x).isEmpty = true)
    (h1 : (m.map Prod.fst).Nodup) (h2 : ∀ p ∈ m, p.2 ≠ [] ∧ p.2.Nodup) :
    ((assocSet m k (s.erase x)).map Prod.fst).Nodup
    ∧ ∀ p ∈ assocSet m k (s.erase x), p.2 ≠ [] ∧ p.2.Nodup := by
  have hmem : k ∈ m.map Prod.fst := mem_keys_of_assocGet_some hg
  have hs := h2 (k, s) (assocGet_mem hg)
  constructor
  · rw [keys_assocSet_of_mem m k _ hmem]
    exact h1
  · intro p hp
    rcases mem_assocSet hp with hp | hp
    · exact h2 p hp
    · subst hp
      refine ⟨?_, hs.2.erase x⟩
      intro hnil
      apply he
      have hz : s.erase x = [] := hnil
      rw [hz]
      rfl

/-! ### The claims -/

/-- C1: for every call to `saveMessage`: if the sequence-allocation step
fails, the call fails with that error, nothing is persisted to the message
store and no message is returned; if allocation succeeds but the store append
fails, the call fails with the propagated error, the store is unchanged, no
message is returned and the allocated id is consumed (the counter has
advanced, so the id is skipped); in both cases each external call is
attempted exactly once — no internal retry. -/
theorem C1_saveMessage_failure_semantics (rc : RedisCounters) (store : CassandraStore)
    (ch uid ct : String) (now : Nat) (e : String) :
    (∀ writeError, MessageService.saveMessage rc store (some e) writeError ch uid ct now =
        (.error e, rc, store, [.incrCall (counterKey ch)]))
    ∧ MessageService.saveMessage rc store none (some e) ch uid ct now =
        (.error e,
         ⟨assocSet rc.counters (counterKey ch)
            ((assocGet rc.counters (counterKey ch)).getD 0 + 1)⟩,
         store,
         [.incrCall (counterKey ch),
          .insertCall ({ channel_id := ch,
                         message_id := Nat.repr
                           ((assocGet rc.counters (counterKey ch)).getD 0 + 1),
                         user_id := uid, content := ct, created_at := now,
                         edited_at := none } : MessageRow)]) :=
  ⟨fun _ => rfl, rfl⟩

/-- C2: for every channel and every serialization of successful `saveMessage`
completions (allocator modelled as the per-key atomic counter), the messageId
values returned for that channel all parse as integers and are strictly
increasing in completion order, whatever the interleaving with other channels
and callers. -/
theorem C2_messageIds_strictly_increasing (now : Nat) (c : String)
    (tr : List (String × String × String)) (rc : RedisCounters) (store : CassandraStore) :
    (∀ s ∈ messageIdsFor c (runSaves now rc store tr).2.2, (String.toNat? s).isSome = true)
    ∧ List.Pairwise (fun a b => (String.toNat? a).getD 0 < (String.toNat? b).getD 0)
        (messageIdsFor c (runSaves now rc store tr).2.2) := by
  rw [runSaves_ids_eq]
  constructor
  · intro s hs
    rw [List.mem_map] at hs
    obtain ⟨x, _, rfl⟩ := hs
    rw [toNat?_natRepr]
    rfl
  · rw [List.pairwise_map]
    have hp := (chanIds_bound_pairwise c (tr.map Prod.fst)
      ((assocGet rc.counters (counterKey c)).getD 0)).2
    refine hp.imp ?_
    intro a b hab
    rw [toNat?_natRepr, toNat?_natRepr]
    simpa using hab

/-- C3: for every message dispatched by the engine: a handler registered for
the exact channelId is invoked with the message and the default broadcast is
not performed, any exception the handler raises (`hb` arbitrary, including
always-throwing) being caught; with no handler registered — in particular
after `removeChannelMessageHandler` — the engine sends to each member of the
channel exactly once, all with the same payload. -/
theorem C3_dispatch_policy (svc : MessageSubscriberService) (cm : ChannelManager)
    (hb : Nat → JsonValue → Bool) (m : ChimeMessage) (ch : String) :
    (∀ handlerId, assocGet svc.messageHandlers m.channelId = some handlerId →
        svc.handleMessage cm hb m.toJson
          = .ok [FanoutEffect.invokeHandler handlerId m.toJson])
    ∧ (assocGet svc.messageHandlers m.channelId = none →
        svc.handleMessage cm hb m.toJson
          = .ok ((cm.getUsersInChannel m.channelId).map
              (fun userId => FanoutEffect.send userId m.toJson)))
    ∧ (cm.WF → assocGet svc.messageHandlers m.channelId = none →
        ∀ u ∈ cm.getUsersInChannel m.channelId,
          ∀ effects, svc.handleMessage cm hb m.toJson = .ok effects →
            (sendTargets effects).count u = 1)
    ∧ ((svc.messageHandlers.map Prod.fst).Nodup →
        assocGet (svc.removeChannelMessageHandler ch).messageHandlers ch = none) := by
  refine ⟨?_, ?_, ?_, ?_⟩
  · intro handlerId hh
    rw [handleMessage_toJson_char, hh]
  · intro hh
    rw [handleMessage_toJson_char, hh]
  · intro hWF hh u hu effects heq
    rw [handleMessage_toJson_char, hh] at heq
    have heffs : effects = (cm.getUsersInChannel m.channelId).map
        (fun userId => FanoutEffect.send userId m.toJson) :=
      (Except.ok.injEq _ _ |>.mp heq.symm)
    subst heffs
    have htargets : sendTargets ((cm.getUsersInChannel m.channelId).map
        (fun userId => FanoutEffect.send userId m.toJson))
          = cm.getUsersInChannel m.channelId := by
      rw [sendTargets, List.filterMap_map]
      exact List.filterMap_some _
    rw [htargets]
    have hnd : (cm.getUsersInChannel m.channelId).Nodup := by
      unfold ChannelManager.getUsersInChannel
      cases hg : assocGet cm.channels m.channelId with
      | none => simp
      | some s => simpa using (hWF.2 (m.channelId, s) (assocGet_mem hg)).2
    exact List.count_eq_one_of_mem hnd hu
  · intro hnd
    exact (assocGet_eq_none_iff _ _).mpr (keys_assocDel_nodup_not_mem _ _ hnd)

/-- Witness for C3 at concrete states: a registered (throwing) handler is the
sole effect; with no handler, members u1 and u2 each get one send; u1 is
counted exactly once; removing the handler empties the lookup. -/
theorem C3_dispatch_policy_witness :
    (MessageSubscriberService.handleMessage ⟨[("c1", 7)], [], true⟩ ⟨[("c1", ["u1", "u2"])]⟩
        (fun _ _ => true) sampleMessage.toJson
      = .ok [FanoutEffect.invokeHandler 7 sampleMessage.toJson])
    ∧ (MessageSubscriberService.handleMessage ⟨[], [], true⟩ ⟨[("c1", ["u1", "u2"])]⟩
        (fun _ _ => true) sampleMessage.toJson
      = .ok [FanoutEffect.send "u1" sampleMessage.toJson,
             FanoutEffect.send "u2" sampleMessage.toJson])
    ∧ (sendTargets [FanoutEffect.send "u1" sampleMessage.toJson,
        FanoutEffect.send "u2" sampleMessage.toJson]).count "u1" = 1
    ∧ assocGet ((MessageSubscriberService.removeChannelMessageHandler
        ⟨[("c1", 7)], [], true⟩ "c1").messageHandlers) "c1" = none := by
  refine ⟨?_, ?_, ?_, ?_⟩
  · exact (C3_dispatch_policy ⟨[("c1", 7)], [], true⟩ ⟨[("c1", ["u1", "u2"])]⟩
      (fun _ _ => true) sampleMessage "c1").1 7 rfl
  · exact (C3_dispatch_policy ⟨[], [], true⟩ ⟨[("c1", ["u1", "u2"])]⟩
      (fun _ _ => true) sampleMessage "c1").2.1 rfl
  · exact (C3_dispatch_policy ⟨[], [], true⟩ ⟨[("c1", ["u1", "u2"])]⟩
      (fun _ _ => true) sampleMessage "c1").2.2.1 (by decide) rfl "u1" (by decide) _ rfl
  · exact (C3_dispatch_policy ⟨[("c1", 7)], [], true⟩ ⟨[("c1", ["u1", "u2"])]⟩
      (fun _ _ => true) sampleMessage "c1").2.2.2 (by decide)

/-- C4 (amended): while `Disconnected`, `subscribeTo` and `unsubscribeFrom`
fail with the "not connected" error and change nothing; the engine's
`sendToUser`, however, performs no connection-state check — its behaviour is
identical to the connected engine's, delegating to the connection registry. -/
theorem C4_disconnected_bus_ops (svc : MessageSubscriberService)
    (h : svc.isConnected = false) (ch uid : String) (ucm : UserConnectionManager)
    (message : JsonValue) :
    svc.subscribeTo ch = .error notConnectedError
    ∧ svc.unsubscribeFrom ch = .error notConnectedError
    ∧ MessageSubscriberService.sendToUser svc ucm uid message
        = MessageSubscriberService.sendToUser { svc with isConnected := true } ucm uid message := by
  refine ⟨?_, ?_, rfl⟩
  · simp [MessageSubscriberService.subscribeTo, h]
  · simp [MessageSubscriberService.unsubscribeFrom, h]

/-- Witness for C4 (amended) at a concrete disconnected engine. -/
theorem C4_disconnected_bus_ops_witness :
    MessageSubscriberService.subscribeTo ⟨[], [], false⟩ "c1" = .error notConnectedError
    ∧ MessageSubscriberService.unsubscribeFrom ⟨[], [], false⟩ "c1"
        = .error notConnectedError := by
  have h := C4_disconnected_bus_ops ⟨[], [], false⟩ rfl "c1" "u1" ⟨[]⟩ JsonValue.null
  exact ⟨h.1, h.2.1⟩

/-- C4 counterexample: with the engine `Disconnected`, `sendToUser` does not
fail with a "not connected" error and does perform delivery: it delegates to
the connection registry and here delivers the wrapped payload to the user's
open connection, returning `true`. -/
theorem C4_counterexample :
    MessageSubscriberService.sendToUser ⟨[], [], false⟩
        ⟨[("u1", [⟨1, true, false⟩])]⟩ "u1" (JsonValue.str "x")
      = (true, [SendAttempt.sent 1 (wrapEnvelope (JsonValue.str "x"))]) := rfl

/-- C5: `sendToUser` on the connection registry visits every connection of
the user (in set order, producing one attempt per connection, independent of
the other attempts' outcomes, a thrown send being caught); it returns `true`
exactly when some open connection's send succeeded, and `(false, [])` — not
an exception — when the user has no entry. -/
theorem C5_sendToUser_soft_fail {α : Type} (ucm : UserConnectionManager) (uid : String)
    (payload : α) :
    (assocGet ucm.userConnections uid = none →
      ucm.sendToUser uid payload = (false, []))
    ∧ (∀ conns, assocGet ucm.userConnections uid = some conns →
        ucm.sendToUser uid payload =
          (conns.any (fun ws => ws.isOpen && !ws.sendThrows),
           conns.map (sendAttemptOf payload)))
    ∧ (∀ conns, assocGet ucm.userConnections uid = some conns →
        ((ucm.sendToUser uid payload).1 = true ↔
          ∃ ws ∈ conns, ws.isOpen = true ∧ ws.sendThrows = false)) := by
  refine ⟨?_, ?_, ?_⟩
  · intro h
    unfold UserConnectionManager.sendToUser
    rw [h]
  · intro conns h
    exact sendToUser_some_char ucm uid payload conns h
  · intro conns h
    rw [sendToUser_some_char ucm uid payload conns h]
    simp [List.any_eq_true]

/-- Witness for C5: one throwing, one succeeding and one closed connection —
the throw does not stop the loop, the closed socket is skipped, the result is
`true`; an unknown user yields `(false, [])`. -/
theorem C5_sendToUser_soft_fail_witness :
    UserConnectionManager.sendToUser
        ⟨[("u1", [⟨1, true, true⟩, ⟨2, true, false⟩, ⟨3, false, false⟩])]⟩ "u1" "x"
      = (true, [SendAttempt.threw 1, SendAttempt.sent 2 "x", SendAttempt.skipped 3])
    ∧ UserConnectionManager.sendToUser (⟨[]⟩ : UserConnectionManager) "ghost" "x"
      = (false, ([] : List (SendAttempt String))) := by
  constructor
  · exact (C5_sendToUser_soft_fail
      ⟨[("u1", [⟨1, true, true⟩, ⟨2, true, false⟩, ⟨3, false, false⟩])]⟩ "u1" "x").2.1
      [⟨1, true, true⟩, ⟨2, true, false⟩, ⟨3, false, false⟩] rfl
  · exact (C5_sendToUser_soft_fail ⟨[]⟩ "ghost" "x").1 rfl

/-- C6 (amended): a payload that is not valid JSON is dropped by the
subscription callback, and no exception escapes the callback boundary for any
payload — a dispatch that throws (e.g. on a `null` payload) is caught and the
payload dropped; subsequent payloads on the same subscription are processed
exactly as if the dropped payload had not occurred.  Schema validation is not
performed: a JSON-valid payload is dispatched (per `handleMessage`) whether or
not it matches the Message schema — see the counterexample. -/
theorem C6_malformed_payload_containment (svc : MessageSubscriberService)
    (cm : ChannelManager) (hb : Nat → JsonValue → Bool) (channel : String) :
    (svc.onBusPayload cm hb channel none = [])
    ∧ (∀ payloads, svc.processPayloads cm hb ((channel, none) :: payloads)
        = svc.processPayloads cm hb payloads)
    ∧ (∀ message, svc.handleMessage cm hb message = .error () →
        svc.onBusPayload cm hb channel (some message) = [])
    ∧ (∀ message effects, svc.handleMessage cm hb message = .ok effects →
        svc.onBusPayload cm hb channel (some message) = effects) := by
  refine ⟨rfl, fun payloads => rfl, ?_, ?_⟩
  · intro message h
    simp [MessageSubscriberService.onBusPayload, h]
  · intro message effects h
    simp [MessageSubscriberService.onBusPayload, h]

/-- Witness for C6 (amended): a `null` payload (valid JSON whose dispatch
throws a `TypeError`) is dropped; a schema-conforming payload is dispatched. -/
theorem C6_malformed_payload_containment_witness :
    MessageSubscriberService.onBusPayload ⟨[], [], true⟩ ⟨[]⟩ (fun _ _ => false) "c1"
        (some JsonValue.null) = []
    ∧ MessageSubscriberService.onBusPayload ⟨[], [], true⟩ ⟨[("c1", ["u1"])]⟩
        (fun _ _ => false) "c1" (some sampleMessage.toJson)
      = [FanoutEffect.send "u1" sampleMessage.toJson] := by
  constructor
  · exact (C6_malformed_payload_containment ⟨[], [], true⟩ ⟨[]⟩ (fun _ _ => false)
      "c1").2.2.1 JsonValue.null rfl
  · exact (C6_malformed_payload_containment ⟨[], [], true⟩ ⟨[("c1", ["u1"])]⟩
      (fun _ _ => false) "c1").2.2.2 sampleMessage.toJson _ rfl

/-- C6 counterexample: the JSON-valid but schema-invalid payload
`{"channelId":"c1"}` (no messageId/userId/content/createdAt fields) is NOT
dropped: with "u1" a member of "c1" and no handler registered, the callback
dispatches it and produces a send. -/
theorem C6_counterexample :
    isValidChimeMessageJson (JsonValue.obj [("channelId", JsonValue.str "c1")]) = false
    ∧ MessageSubscriberService.onBusPayload ⟨[], [], true⟩ ⟨[("c1", ["u1"])]⟩
        (fun _ _ => false) "c1" (some (JsonValue.obj [("channelId", JsonValue.str "c1")]))
      = [FanoutEffect.send "u1" (JsonValue.obj [("channelId", JsonValue.str "c1")])]
    ∧ MessageSubscriberService.onBusPayload ⟨[], [], true⟩ ⟨[("c1", ["u1"])]⟩
        (fun _ _ => false) "c1" (some (JsonValue.obj [("channelId", JsonValue.str "c1")]))
      ≠ [] := by
  refine ⟨rfl, rfl, ?_⟩
  intro h
  have h2 : [FanoutEffect.send "u1" (JsonValue.obj [("channelId", JsonValue.str "c1")])]
      = ([] : List FanoutEffect) := h
  exact List.cons_ne_nil _ _ h2

/-- C7: while `Connected`, `subscribeTo` on an already-subscribed channel and
`unsubscribeFrom` on a non-subscribed channel are no-ops: the state is
returned unchanged, no bus call is made, and no error is raised. -/
theorem C7_subscription_noops (svc : MessageSubscriberService) (ch : String)
    (h : svc.isConnected = true) :
    (ch ∈ svc.subscribedChannels → svc.subscribeTo ch = .ok (svc, []))
    ∧ (ch ∉ svc.subscribedChannels → svc.unsubscribeFrom ch = .ok (svc, [])) := by
  constructor
  · intro hmem
    simp [MessageSubscriberService.subscribeTo, h, hmem]
  · intro hmem
    simp [MessageSubscriberService.unsubscribeFrom, h, hmem]

/-- Witness for C7 at a concrete connected engine subscribed to "c1". -/
theorem C7_subscription_noops_witness :
    MessageSubscriberService.subscribeTo ⟨[], ["c1"], true⟩ "c1"
      = .ok (⟨[], ["c1"], true⟩, [])
    ∧ MessageSubscriberService.unsubscribeFrom ⟨[], ["c1"], true⟩ "c2"
      = .ok (⟨[], ["c1"], true⟩, []) := by
  constructor
  · exact (C7_subscription_noops ⟨[], ["c1"], true⟩ "c1" rfl).1 (by decide)
  · exact (C7_subscription_noops ⟨[], ["c1"], true⟩ "c2" rfl).2 (by decide)

/-- C8: membership algebra of `ChannelManager`: adding a member twice equals
adding once; removing a non-member (channel unknown included) of a
well-formed state changes nothing and raises nothing; removing the last
member deletes the channel entry; membership query on an unknown channel is
the empty list, not an error. -/
theorem C8_membership_algebra (cm : ChannelManager) (c u : String) :
    ((cm.addUserToChannel c u).addUserToChannel c u = cm.addUserToChannel c u)
    ∧ (cm.WF → u ∉ cm.getUsersInChannel c → cm.removeUserFromChannel c u = cm)
    ∧ (cm.WF → cm.getUsersInChannel c = [u] →
        c ∉ (cm.removeUserFromChannel c u).getChannels)
    ∧ (assocGet cm.channels c = none → cm.getUsersInChannel c = []) := by
  refine ⟨?_, ?_, ?_, ?_⟩
  · have hget : ∃ s', assocGet (cm.addUserToChannel c u).channels c = some s' ∧ u ∈ s' := by
      unfold ChannelManager.addUserToChannel
      cases hg : assocGet cm.channels c with
      | none =>
        exact ⟨[u], assocGet_append_single_self _ _ _ hg, by simp⟩
      | some s =>
        refine ⟨if u ∈ s then s else s ++ [u], ?_, ?_⟩
        · dsimp only
          exact assocGet_set_self _ _ _
        · by_cases hu : u ∈ s <;> simp [hu]
    obtain ⟨s', hs', hu'⟩ := hget
    conv_lhs => rw [ChannelManager.addUserToChannel]
    rw [hs']
    dsimp only
    rw [if_pos hu', assocSet_get_self _ _ _ hs']
  · intro hWF hu
    unfold ChannelManager.removeUserFromChannel
    cases hg : assocGet cm.channels c with
    | none => rfl
    | some s =>
      dsimp only
      have hus : u ∉ s := by
        unfold ChannelManager.getUsersInChannel at hu
        rw [hg] at hu
        exact hu
      rw [List.erase_of_not_mem hus]
      have hne := (hWF.2 (c, s) (assocGet_mem hg)).1
      rw [if_neg (by simpa [List.isEmpty_iff] using hne)]
      rw [assocSet_get_self _ _ _ hg]
  · intro hWF hone
    have hg : assocGet cm.channels c = some [u] := by
      unfold ChannelManager.getUsersInChannel at hone
      cases hgg : assocGet cm.channels c with
      | none => rw [hgg] at hone; simp at hone
      | some s => rw [hgg] at hone; simp at hone; rw [hone]
    unfold ChannelManager.removeUserFromChannel ChannelManager.getChannels
    rw [hg]
    dsimp only
    rw [List.erase_cons_head]
    show c ∉ (assocDel cm.channels c).map Prod.fst
    exact keys_assocDel_nodup_not_mem _ _ hWF.1
  · intro h
    unfold ChannelManager.getUsersInChannel
    rw [h]
    rfl

/-- Witness for C8 at concrete states. -/
theorem C8_membership_algebra_witness :
    (ChannelManager.removeUserFromChannel ⟨[("c1", ["u1", "u2"])]⟩ "c1" "u9"
      = (⟨[("c1", ["u1", "u2"])]⟩ : ChannelManager))
    ∧ ("c1" ∉ (ChannelManager.removeUserFromChannel ⟨[("c1", ["u1"])]⟩ "c1" "u1").getChannels)
    ∧ ChannelManager.getUsersInChannel ⟨[("c1", ["u1"])]⟩ "zzz" = [] := by
  refine ⟨?_, ?_, ?_⟩
  · exact (C8_membership_algebra ⟨[("c1", ["u1", "u2"])]⟩ "c1" "u9").2.1
      (by decide) (by decide)
  · exact (C8_membership_algebra ⟨[("c1", ["u1"])]⟩ "c1" "u1").2.2.1
      (by decide) (by decide)
  · exact (C8_membership_algebra ⟨[("c1", ["u1"])]⟩ "zzz" "u1").2.2.2 (by decide)

/-- C9: well-formedness — unique keys and non-empty, duplicate-free sets — is
preserved by every mutation of the connection registry and the membership
map, so every user listed by `getAllConnectedUsers` has a non-empty
connection set and every channel listed by `getChannels` a non-empty member
set. -/
theorem C9_nonempty_sets_invariant (ucm : UserConnectionManager) (cm : ChannelManager)
    (u c : String) (ws : WSConn) :
    (ucm.WF → (ucm.addUserConnection u ws).WF)
    ∧ (ucm.WF → (ucm.removeUserConnection u ws).WF)
    ∧ (cm.WF → (cm.addUserToChannel c u).WF)
    ∧ (cm.WF → (cm.removeUserFromChannel c u).WF)
    ∧ (ucm.WF → ∀ uid ∈ ucm.getAllConnectedUsers, ucm.getUserConnections uid ≠ [])
    ∧ (cm.WF → ∀ ch ∈ cm.getChannels, cm.getUsersInChannel ch ≠ []) := by
  refine ⟨?_, ?_, ?_, ?_, ?_, ?_⟩
  · intro h
    unfold UserConnectionManager.WF UserConnectionManager.addUserConnection
    dsimp only
    cases hg : assocGet ucm.userConnections u with
    | none => exact wf_parts_append_new _ _ ws hg h.1 h.2
    | some s => exact wf_parts_set_add _ _ ws s hg h.1 h.2
  · intro h
    unfold UserConnectionManager.WF UserConnectionManager.removeUserConnection
    dsimp only
    cases hg : assocGet ucm.userConnections u with
    | none => exact ⟨h.1, h.2⟩
    | some s =>
      by_cases he : (s.erase ws).isEmpty
      · dsimp only
        rw [if_pos he]
        exact wf_parts_del _ _ h.1 h.2
      · dsimp only
        rw [if_neg he]
        exact wf_parts_set_erase _ _ ws s hg he h.1 h.2
  · intro h
    unfold ChannelManager.WF ChannelManager.addUserToChannel
    dsimp only
    cases hg : assocGet cm.channels c with
    | none => exact wf_parts_append_new _ _ u hg h.1 h.2
    | some s => exact wf_parts_set_add _ _ u s hg h.1 h.2
  · intro h
    unfold ChannelManager.WF ChannelManager.removeUserFromChannel
    dsimp only
    cases hg : assocGet cm.channels c with
    | none => exact ⟨h.1, h.2⟩
    | some s =>
      by_cases he : (s.erase u).isEmpty
      · dsimp only
        rw [if_pos he]
        exact wf_parts_del _ _ h.1 h.2
      · dsimp only
        rw [if_neg he]
        exact wf_parts_set_erase _ _ u s hg he h.1 h.2
  · intro h uid hmem
    obtain ⟨v, hv⟩ := assocGet_isSome_of_mem_keys _ _ hmem
    unfold UserConnectionManager.getUserConnections
    rw [hv]
    simpa using (h.2 (uid, v) (assocGet_mem hv)).1
  · intro h ch hmem
    obtain ⟨v, hv⟩ := assocGet_isSome_of_mem_keys _ _ hmem
    unfold ChannelManager.getUsersInChannel
    rw [hv]
    simpa using (h.2 (ch, v) (assocGet_mem hv)).1

/-- Witness for C9 at concrete states. -/
theorem C9_nonempty_sets_invariant_witness :
    (UserConnectionManager.addUserConnection ⟨[("u1", [⟨1, true, false⟩])]⟩ "u2"
        ⟨2, true, false⟩).WF
    ∧ (ChannelManager.removeUserFromChannel ⟨[("c1", ["u1"])]⟩ "c1" "u1").WF
    ∧ ChannelManager.getUsersInChannel ⟨[("c1", ["u1"])]⟩ "c1" ≠ [] := by
  refine ⟨?_, ?_, ?_⟩
  · exact (C9_nonempty_sets_invariant ⟨[("u1", [⟨1, true, false⟩])]⟩ ⟨[]⟩ "u2" "c"
      ⟨2, true, false⟩).1 (by decide)
  · exact (C9_nonempty_sets_invariant ⟨[]⟩ ⟨[("c1", ["u1"])]⟩ "u1" "c1"
      ⟨0, true, false⟩).2.2.2.1 (by decide)
  · exact (C9_nonempty_sets_invariant ⟨[]⟩ ⟨[("c1", ["u1"])]⟩ "u1" "c1"
      ⟨0, true, false⟩).2.2.2.2.2 (by decide) "c1" (by decide)

/-- C10: the subscription callback routes by the deserialized payload's own
`channelId` field, not by the topic it fired on: its result is independent of
the topic, and for a payload whose `channelId` differs from the topic both
the handler lookup and the broadcast membership are keyed on the payload's
`channelId`. -/
theorem C10_routing_by_payload_channelId (svc : MessageSubscriberService)
    (cm : ChannelManager) (hb : Nat → JsonValue → Bool) (m : ChimeMessage)
    (topic : String) (h : topic ≠ m.channelId) :
    (∀ topic', svc.onBusPayload cm hb topic (some m.toJson)
        = svc.onBusPayload cm hb topic' (some m.toJson))
    ∧ (∀ handlerId, assocGet svc.messageHandlers m.channelId = some handlerId →
        svc.onBusPayload cm hb topic (some m.toJson)
          = [FanoutEffect.invokeHandler handlerId m.toJson])
    ∧ (assocGet svc.messageHandlers m.channelId = none →
        svc.onBusPayload cm hb topic (some m.toJson)
          = (cm.getUsersInChannel m.channelId).map
              (fun userId => FanoutEffect.send userId m.toJson)) := by
  refine ⟨fun topic' => rfl, ?_, ?_⟩
  · intro handlerId hh
    simp [MessageSubscriberService.onBusPayload, handleMessage_toJson_char, hh]
  · intro hh
    simp [MessageSubscriberService.onBusPayload, handleMessage_toJson_char, hh]

/-- Witness for C10: a payload for channel "c1" arriving on a different topic
is still broadcast to the members of "c1". -/
theorem C10_routing_by_payload_channelId_witness :
    MessageSubscriberService.onBusPayload ⟨[], [], true⟩ ⟨[("c1", ["u1"])]⟩
        (fun _ _ => false) "another-topic" (some sampleMessage.toJson)
      = [FanoutEffect.send "u1" sampleMessage.toJson] := by
  exact (C10_routing_by_payload_channelId ⟨[], [], true⟩ ⟨[("c1", ["u1"])]⟩
    (fun _ _ => false) sampleMessage "another-topic" (by decide)).2.2 rfl

/-- Witness for C2: the spec's concrete scenario — two saves on "general"
from a fresh counter yield messageIds "1" then "2", parsing to 1 < 2. -/
theorem C2_messageIds_strictly_increasing_witness :
    (String.toNat? "1").isSome = true
    ∧ List.Pairwise (fun a b => (String.toNat? a).getD 0 < (String.toNat? b).getD 0)
        (messageIdsFor "general" (runSaves 0 ⟨[]⟩ ⟨[]⟩
          [("general", "u1", "hi"), ("general", "u1", "there")]).2.2) := by
  constructor
  · exact (C2_messageIds_strictly_increasing 0 "general"
      [("general", "u1", "hi"), ("general", "u1", "there")] ⟨[]⟩ ⟨[]⟩).1 "1" (by decide)
  · exact (C2_messageIds_strictly_increasing 0 "general"
      [("general", "u1", "hi"), ("general", "u1", "there")] ⟨[]⟩ ⟨[]⟩).2
